import Mathlib

/-!
# Verification of the eckit expression-evaluation core

Shallow embedding of the expression-evaluation engine of `eckit`
(`src/eckit/maths/Exp.cc`, `src/eckit/maths/Count.cc`) and of the dense
tensor container (`src/eckit/linalg/Tensor.h`), with theorems settling
the specification's claims about them.

Conventions:
* shared pointers (`ExpPtr`, `ValPtr`) become plain inductive values — a
  pointer is never null in the embedding, so `ASSERT(p)` is vacuous;
* a failed `ASSERT` / a thrown exception becomes `none` / `Except.error`;
* the evaluation context `context_t` (a deque of `ExpPtr` consumed at the
  front) becomes `List Expr`, popped at the head;
* machine sizes (`size_t`, `eckit::linalg::Size`) become `Nat`.
-/

namespace Eckit

namespace Maths

/-- The expression-node hierarchy of `eckit::maths`, restricted to the
variants implemented in the sampled sources: `Scalar` and `List` value
leaves, the `Undef` placeholder (`Exp.cc`), and the `Count` function node
(`Count.cc`). -/
inductive Expr : Type
  /-- a `Scalar` value leaf holding one number -/
  | scalar (n : Int) : Expr
  /-- a `List` value leaf holding an ordered sequence of expressions -/
  | listV (xs : List Expr) : Expr
  /-- the `Undef` placeholder (`Exp.cc`, class `Undef`) -/
  | undef : Expr
  /-- the `Count` function node (`Count.cc`), arity 1 -/
  | count (a : Expr) : Expr

mutual

/-- Decidable structural equality of expression nodes (the nested list
forces a hand-written instance). -/
def Expr.deq : (a b : Expr) → Decidable (a = b)
  | .scalar a, .scalar b =>
    match decEq a b with
    | isTrue h => isTrue (by rw [h])
    | isFalse h => isFalse (fun hh => by cases hh; exact h rfl)
  | .listV xs, .listV ys =>
    match Expr.deqList xs ys with
    | isTrue h => isTrue (by rw [h])
    | isFalse h => isFalse (fun hh => by cases hh; exact h rfl)
  | .undef, .undef => isTrue rfl
  | .count a, .count b =>
    match Expr.deq a b with
    | isTrue h => isTrue (by rw [h])
    | isFalse h => isFalse (fun hh => by cases hh; exact h rfl)
  | .scalar _, .listV _ => isFalse (fun h => by cases h)
  | .scalar _, .undef => isFalse (fun h => by cases h)
  | .scalar _, .count _ => isFalse (fun h => by cases h)
  | .listV _, .scalar _ => isFalse (fun h => by cases h)
  | .listV _, .undef => isFalse (fun h => by cases h)
  | .listV _, .count _ => isFalse (fun h => by cases h)
  | .undef, .scalar _ => isFalse (fun h => by cases h)
  | .undef, .listV _ => isFalse (fun h => by cases h)
  | .undef, .count _ => isFalse (fun h => by cases h)
  | .count _, .scalar _ => isFalse (fun h => by cases h)
  | .count _, .listV _ => isFalse (fun h => by cases h)
  | .count _, .undef => isFalse (fun h => by cases h)

/-- Decidable equality of expression lists. -/
def Expr.deqList : (xs ys : List Expr) → Decidable (xs = ys)
  | [], [] => isTrue rfl
  | [], _ :: _ => isFalse (fun h => by cases h)
  | _ :: _, [] => isFalse (fun h => by cases h)
  | x :: xs, y :: ys =>
    match Expr.deq x y, Expr.deqList xs ys with
    | isTrue h1, isTrue h2 => isTrue (by rw [h1, h2])
    | isFalse h1, _ => isFalse (fun hh => by cases hh; exact h1 rfl)
    | _, isFalse h2 => isFalse (fun hh => by cases hh; exact h2 rfl)

end

instance : DecidableEq Expr := Expr.deq

/-- Modelled from the spec: `Undef::is` (declared in the header `Exp.h`,
which is not among the sampled sources) tests whether a node "is statically
an Undef placeholder". -/
def isUndef : Expr → Bool
  | .undef => true
  | _ => false

/-- Modelled from the spec: `arity()` of an expression (declared in the
missing headers) is "the element count of a list-like value"; a non-list
node counts as a single element. Only the `List` case is exercised by the
claims. -/
def arity : Expr → Nat
  | .listV xs => xs.length
  | _ => 1

/-- Errors surfaced by failed assertions during evaluation
(`ASSERT` in `Exp.cc`). -/
inductive EvalErr : Type
  /-- `ASSERT( !ctx->empty() )` in `Expr::param` failed: evaluation tried
  to pop an argument from an already emptied scope -/
  | popEmptyScope : EvalErr
  /-- `ASSERT( ctx.empty() )` after `evaluate` in the argument-taking
  `Expr::eval` overloads failed: the scope was not fully consumed -/
  | scopeNotEmpty : EvalErr
  deriving DecidableEq, Repr

/-- `Expr::param(i, ctx)` (`Exp.cc` lines 65-79): asserts `i` is in
bounds; if a context is supplied (the pointer is non-null, here `some`)
and `args[i]` is literally an Undef placeholder, asserts the context is
non-empty, pops and returns its front element together with the shrunken
context; otherwise returns `args[i]` with the context unchanged. -/
def paramGet (args : List Expr) (i : Nat) (ctx : Option (List Expr)) :
    Option (Expr × Option (List Expr)) :=
  if h : i < args.length then
    match ctx with
    | some q =>
      if isUndef args[i] then
        match q with
        | [] => none
        | e :: rest => some (e, some rest)
      else
        some (args[i], some q)
    | none => some (args[i], none)
  else
    none

/-- `Expr::param(i, p)` (`Exp.cc` lines 81-87): asserts `i` is in bounds
(`p` is always non-null here), and replaces slot `i` of the argument list
with `p` unless `p` already equals that slot. -/
def paramSet (args : List Expr) (i : Nat) (p : Expr) : Option (List Expr) :=
  if h : i < args.length then
    some (if p = args[i] then args else args.set i p)
  else
    none

/-- Result of `evaluate`: the produced `Value` (as an expression node),
the remaining scope, and the number of pops performed on the scope —
the latter instruments the embedding so that "the scope was never
touched" is expressible. -/
structure EvalOut : Type where
  val : Expr
  ctx : List Expr
  pops : Nat
  deriving DecidableEq

/-- `evaluate(ctx)` of the sampled node variants.
* `Undef::evaluate` (`Exp.cc` lines 106-109) returns the node itself,
  cast to a `Value`, without touching the scope;
* `Count::evaluate` (`Count.cc` lines 29-32) returns
  `scalar( param(0, ctx)->arity() )`, the `param` call popping the scope
  front exactly when its single argument is an Undef placeholder;
* the `Value` leaves (`Scalar`, `List`) — modelled from the spec, their
  `evaluate` living in headers not among the sampled sources — are
  terminal nodes that evaluate to themselves. -/
def evaluate : Expr → List Expr → Except EvalErr EvalOut
  | .scalar n, ctx => .ok ⟨.scalar n, ctx, 0⟩
  | .listV xs, ctx => .ok ⟨.listV xs, ctx, 0⟩
  | .undef, ctx => .ok ⟨.undef, ctx, 0⟩
  | .count a, ctx =>
    if isUndef a then
      match ctx with
      | [] => .error .popEmptyScope
      | e :: rest => .ok ⟨.scalar (arity e), rest, 1⟩
    else
      .ok ⟨.scalar (arity a), ctx, 0⟩

/-- Modelled from the spec: `Expr::optimise` (declared in the missing
header `Exp.h`) — "default behavior is identity"; no sampled variant
overrides it. -/
def optimise (e : Expr) : Expr := e

/-- `Expr::eval()` (`Exp.cc` lines 31-35): fresh empty scope, then
`optimise()->evaluate(ctx)`; this zero-argument overload performs no
scope-empty assertion afterwards. -/
def eval0 (t : Expr) : Except EvalErr Expr :=
  (evaluate (optimise t) []).map (·.val)

/-- The argument-taking `Expr::eval` overloads (`Exp.cc` lines 37-62):
seed a fresh scope with the supplied arguments in call order, run
`optimise()->evaluate(ctx)`, then `ASSERT( ctx.empty() )`. -/
def evalWith (t : Expr) (as : List Expr) : Except EvalErr Expr :=
  match evaluate (optimise t) as with
  | .error e => .error e
  | .ok out => if out.ctx.isEmpty then .ok out.val else .error .scopeNotEmpty

mutual

/-- Number of Undef placeholder nodes contained in a tree. -/
def numUndefs : Expr → Nat
  | .scalar _ => 0
  | .listV xs => numUndefsList xs
  | .undef => 1
  | .count a => numUndefs a

/-- Number of Undef placeholder nodes in a list of trees. -/
def numUndefsList : List Expr → Nat
  | [] => 0
  | e :: es => numUndefs e + numUndefsList es

end

/-- Error signalled by `cloneWith` when the structural rewrite is not
implemented for a variant (the `NOTIMP` macro). -/
inductive CloneErr : Type
  | notImplemented : CloneErr
  deriving DecidableEq, Repr

/-- `Count::cloneWith(a)` (`Count.cc` lines 34-36): the body is `NOTIMP`
— it signals an unimplemented-operation failure for every replacement
argument list. -/
def countCloneWith (_a : List Expr) : Except CloneErr Expr :=
  .error .notImplemented

end Maths

namespace Linalg

/-- `Tensor<S>::flatten(shape)` (`Tensor.h` lines 45-47): the product of
the dimensions, computed by left fold starting from 1. -/
def flatten (shape : List Nat) : Nat :=
  shape.foldl (fun a b => a * b) 1

/-- Dense tensor `Tensor<S>` (`Tensor.h`): a shape vector and the
contents of the contiguous element array `array_`; the stored flattened
size `size_` equals the number of allocated elements, i.e. `data.length`. -/
structure TensorM (S : Type) : Type where
  shape : List Nat
  data : List S
  deriving DecidableEq, Repr

/-- `Tensor::size()`: the flattened size, the number of elements held. -/
def TensorM.size {S : Type} (t : TensorM S) : Nat :=
  t.data.length

/-- `Tensor<S>::Tensor(const std::vector<Size>& shape)` (`Tensor.h`
lines 55-60): records the shape, sets `size_ = flatten(shape_)`, asserts
the size is strictly positive, then allocates `size_` elements
(uninitialised in C++; an arbitrary default element models the fresh
allocation). A failed assertion is `none`. -/
def mkTensor (S : Type) [Inhabited S] (shape : List Nat) : Option (TensorM S) :=
  let sz := flatten shape
  if 0 < sz then some ⟨shape, List.replicate sz default⟩ else none

/-- One item on a serialisation `Stream`: an encoded number, or a raw
blob of element bytes (kept at element granularity; the same-architecture
assumption of the claim makes byte order irrelevant). -/
inductive Tok (S : Type) : Type
  | num (n : Nat) : Tok S
  | blob (xs : List S) : Tok S
  deriving DecidableEq, Repr

/-- `Tensor::encode(s)` (`Tensor.h` lines 143-148): writes the number of
dimensions, each dimension, then the raw element array as one blob of
`size() * sizeof(S)` bytes. -/
def encode {S : Type} (t : TensorM S) : List (Tok S) :=
  Tok.num t.shape.length :: (t.shape.map Tok.num ++ [Tok.blob t.data])

/-- Read one number from the stream. -/
def readNum {S : Type} : List (Tok S) → Option (Nat × List (Tok S))
  | .num n :: rest => some (n, rest)
  | _ => none

/-- Read `k` numbers from the stream. -/
def readNums {S : Type} : Nat → List (Tok S) → Option (List Nat × List (Tok S))
  | 0, s => some ([], s)
  | k + 1, s =>
    match readNum s with
    | none => none
    | some (n, s1) =>
      match readNums k s1 with
      | none => none
      | some (ns, s2) => some (n :: ns, s2)

/-- `Stream::readBlob` of exactly `k * sizeof(S)` bytes: consumes a blob
holding exactly `k` elements. -/
def readBlob {S : Type} (k : Nat) : List (Tok S) → Option (List S × List (Tok S))
  | .blob xs :: rest => if xs.length = k then some (xs, rest) else none
  | _ => none

/-- `Tensor<S>::Tensor(Stream& s)` (`Tensor.h` lines 71-81): reads the
number of dimensions, then each dimension; `resize` allocates
`flatten(shape)` elements; `ASSERT(size() > 0)` rejects a zero flattened
size; finally `readBlob` fills the array with `size() * sizeof(S)` raw
bytes from the stream. -/
def decode {S : Type} (s : List (Tok S)) : Option (TensorM S × List (Tok S)) :=
  match readNum s with
  | none => none
  | some (shapeSize, s1) =>
    match readNums shapeSize s1 with
    | none => none
    | some (shape, s2) =>
      if 0 < flatten shape then
        match readBlob (flatten shape) s2 with
        | none => none
        | some (data, s3) => some (⟨shape, data⟩, s3)
      else
        none

end Linalg

end Eckit

namespace Eckit

open Maths Linalg

/-- Sanity check: `count` over a three-element list value evaluates to
the scalar 3 and leaves the scope alone. -/
example : evaluate (.count (.listV [.scalar 5, .undef, .scalar 7])) [] =
    .ok ⟨.scalar 3, [], 0⟩ := rfl

/-- Sanity check: `count(undef)` pops the scope front and counts it. -/
example : evaluate (.count .undef) [.listV [.scalar 1, .scalar 2]] =
    .ok ⟨.scalar 2, [], 1⟩ := rfl

/-- `isUndef` recognises exactly the Undef placeholder. -/
theorem isUndef_eq_true_iff (e : Expr) : isUndef e = true ↔ e = Expr.undef := by
  cases e <;> simp [isUndef]

/-- `isUndef` is false exactly off the Undef placeholder. -/
theorem isUndef_eq_false_iff (e : Expr) : isUndef e = false ↔ e ≠ Expr.undef := by
  cases e <;> simp [isUndef]

/-- C1: `Expr::param(i, scope)` with `i` in bounds and a non-null scope
pops and returns the scope's front element — removing it from the scope —
exactly when `args[i]` is literally an Undef placeholder, failing the
non-emptiness assertion when the scope is empty; on a non-Undef slot it
returns `args[i]` and leaves the scope unchanged. -/
theorem param_pops_iff_undef (args : List Expr) (i : Nat) (q : List Expr)
    (h : i < args.length) :
    (args[i] = Expr.undef →
      (q = [] → paramGet args i (some q) = none) ∧
      (∀ e rest, q = e :: rest → paramGet args i (some q) = some (e, some rest))) ∧
    (args[i] ≠ Expr.undef → paramGet args i (some q) = some (args[i], some q)) := by
  constructor
  · intro hu
    have hb : isUndef args[i] = true := (isUndef_eq_true_iff _).mpr hu
    constructor
    · intro hq
      subst hq
      simp [paramGet, h, hb]
    · intro e rest hq
      subst hq
      simp [paramGet, h, hb]
  · intro hn
    have hb : isUndef args[i] = false := (isUndef_eq_false_iff _).mpr hn
    simp [paramGet, h, hb]

/-- Witness for C1: `param(0, scope)` on an Undef slot pops the front of
the scope, and on a scalar slot returns the slot with the scope intact. -/
theorem param_pops_iff_undef_witness :
    paramGet [Expr.undef] 0 (some [Expr.scalar 9]) =
      some (Expr.scalar 9, some []) ∧
    paramGet [Expr.scalar 5] 0 (some [Expr.scalar 9]) =
      some (Expr.scalar 5, some [Expr.scalar 9]) := by
  constructor
  · exact ((param_pops_iff_undef [Expr.undef] 0 [Expr.scalar 9]
      (by decide)).1 rfl).2 (Expr.scalar 9) [] rfl
  · exact (param_pops_iff_undef [Expr.scalar 5] 0 [Expr.scalar 9]
      (by decide)).2 (fun hh => Expr.noConfusion hh)

/-- C2 counterexample: `Count::cloneWith` on a one-element replacement
list signals the unimplemented-operation failure (`NOTIMP`) instead of
building a new Count node. -/
theorem count_cloneWith_notimp_singleton :
    countCloneWith [Expr.scalar 0] = Except.error CloneErr.notImplemented := rfl

/-- C2 amended: `Count::cloneWith` signals an unimplemented-operation
failure (`NOTIMP`) for every replacement argument list, one-element lists
included. -/
theorem count_cloneWith_always_notimp (a : List Expr) :
    countCloneWith a = Except.error CloneErr.notImplemented := rfl

/-- C3 counterexample: evaluating a never-substituted Undef node with an
empty scope returns a value — the node itself — rather than raising any
error at that point. -/
theorem undef_evaluate_returns_itself_empty :
    evaluate Expr.undef [] = Except.ok ⟨Expr.undef, [], 0⟩ := rfl

/-- C3 amended: evaluating an Undef node that was never substituted is a
no-op identity — it returns the Undef node itself cast as a Value, leaves
the scope untouched, and raises no error at the point of evaluation. -/
theorem undef_evaluate_noop (ctx : List Expr) :
    evaluate Expr.undef ctx = Except.ok ⟨Expr.undef, ctx, 0⟩ := rfl

/-- C4 counterexample: the bare Undef tree contains one placeholder, yet
the zero-argument `eval` — supplying fewer arguments than placeholders —
returns the unsubstituted placeholder as a value instead of failing with
an arity error. -/
theorem eval_fewer_args_no_error_on_bare_undef :
    numUndefs Expr.undef = 1 ∧ eval0 Expr.undef = Except.ok Expr.undef := by
  constructor
  · simp [numUndefs]
  · rfl

/-- C4 amended: for every tree `t` with `k` Undef placeholders, an
argument-taking `eval` overload supplied with more than `k` arguments
fails the scope-empty assertion after evaluation; supplying fewer
arguments than placeholders fails the pop-from-empty-scope assertion only
when evaluation actually fetches a placeholder through `param` — as
`count(undef)` under the zero-argument `eval` does — whereas a
placeholder evaluated directly (a bare Undef tree) yields no error. -/
theorem eval_scope_arity_amended :
    (∀ (t : Expr) (ctx : List Expr), numUndefs t < ctx.length →
      evalWith t ctx = Except.error EvalErr.scopeNotEmpty) ∧
    eval0 (Expr.count Expr.undef) = Except.error EvalErr.popEmptyScope := by
  constructor
  · intro t ctx hlt
    cases t with
    | scalar n =>
      cases ctx with
      | nil => simp [numUndefs] at hlt
      | cons c cs => simp [evalWith, optimise, evaluate]
    | listV xs =>
      cases ctx with
      | nil => simp [numUndefs] at hlt
      | cons c cs => simp [evalWith, optimise, evaluate]
    | undef =>
      cases ctx with
      | nil => simp [numUndefs] at hlt
      | cons c cs => simp [evalWith, optimise, evaluate]
    | count a =>
      cases ha : isUndef a with
      | true =>
        have ha1 : a = Expr.undef := (isUndef_eq_true_iff a).mp ha
        subst ha1
        have h1 : numUndefs (Expr.count Expr.undef) = 1 := by
          simp [numUndefs]
        rw [h1] at hlt
        cases ctx with
        | nil => simp at hlt
        | cons c cs =>
          cases cs with
          | nil => simp at hlt
          | cons d ds => simp [evalWith, optimise, evaluate, isUndef]
      | false =>
        cases ctx with
        | nil => simp [numUndefs] at hlt
        | cons c cs => simp [evalWith, optimise, evaluate, ha]
  · rfl

/-- Witness for C4 amended: a scalar tree (zero placeholders) given one
argument leaves the scope non-empty and fails, and `count(undef)` (one
placeholder) given none pops the emptied scope and fails. -/
theorem eval_scope_arity_amended_witness :
    evalWith (Expr.scalar 3) [Expr.scalar 1] =
      Except.error EvalErr.scopeNotEmpty ∧
    eval0 (Expr.count Expr.undef) = Except.error EvalErr.popEmptyScope := by
  constructor
  · exact eval_scope_arity_amended.1 (Expr.scalar 3) [Expr.scalar 1]
      (by simp [numUndefs])
  · exact eval_scope_arity_amended.2

/-- C5: `count` over a list value of length `n` evaluates — both through
the zero-argument `eval` and when the list arrives through the scope —
to the Scalar `n`, and the result depends only on the number of top-level
elements, not on their contents. -/
theorem count_scalar_length (xs ys : List Expr) (h : xs.length = ys.length) :
    eval0 (Expr.count (Expr.listV xs)) =
      Except.ok (Expr.scalar xs.length) ∧
    evalWith (Expr.count Expr.undef) [Expr.listV xs] =
      Except.ok (Expr.scalar xs.length) ∧
    eval0 (Expr.count (Expr.listV xs)) = eval0 (Expr.count (Expr.listV ys)) := by
  refine ⟨rfl, rfl, ?_⟩
  simp [eval0, optimise, evaluate, isUndef, arity, h]

/-- Witness for C5: two three-element lists with different contents both
count to Scalar 3. -/
theorem count_scalar_length_witness :
    eval0 (Expr.count (Expr.listV [Expr.scalar 1, Expr.scalar 2, Expr.scalar 3])) =
      Except.ok (Expr.scalar 3) ∧
    evalWith (Expr.count Expr.undef)
        [Expr.listV [Expr.scalar 1, Expr.scalar 2, Expr.scalar 3]] =
      Except.ok (Expr.scalar 3) ∧
    eval0 (Expr.count (Expr.listV [Expr.scalar 1, Expr.scalar 2, Expr.scalar 3])) =
      eval0 (Expr.count (Expr.listV [Expr.scalar 7, Expr.undef, Expr.scalar 9])) :=
  count_scalar_length [Expr.scalar 1, Expr.scalar 2, Expr.scalar 3]
    [Expr.scalar 7, Expr.undef, Expr.scalar 9] rfl

/-- C6: a tree with zero Undef placeholders evaluates successfully under
the zero-argument `eval` (the embedding's `evaluate` is a total function,
so evaluation terminates), and the scope is never touched: for any scope
contents the evaluation performs zero pops and returns the scope
unchanged. -/
theorem eval_no_undef_scope_untouched (t : Expr) (h : numUndefs t = 0) :
    ∃ v, eval0 t = Except.ok v ∧
      ∀ ctx, evaluate (optimise t) ctx = Except.ok ⟨v, ctx, 0⟩ := by
  cases t with
  | scalar n => exact ⟨Expr.scalar n, rfl, fun ctx => rfl⟩
  | listV xs => exact ⟨Expr.listV xs, rfl, fun ctx => rfl⟩
  | undef => simp [numUndefs] at h
  | count a =>
    have ha : isUndef a = false := by
      cases a with
      | undef => simp [numUndefs] at h
      | scalar n => rfl
      | listV xs => rfl
      | count b => rfl
    exact ⟨Expr.scalar (arity a),
      by simp [eval0, optimise, evaluate, ha, Except.map],
      fun ctx => by simp [optimise, evaluate, ha]⟩

/-- Witness for C6: counting a literal one-element list touches no scope. -/
theorem eval_no_undef_scope_untouched_witness :
    ∃ v, eval0 (Expr.count (Expr.listV [Expr.scalar 4])) = Except.ok v ∧
      ∀ ctx, evaluate (optimise (Expr.count (Expr.listV [Expr.scalar 4]))) ctx =
        Except.ok ⟨v, ctx, 0⟩ :=
  eval_no_undef_scope_untouched (Expr.count (Expr.listV [Expr.scalar 4]))
    (by simp [numUndefs, numUndefsList])

/-- C7: `optimise` is idempotent — `optimise(optimise(t))` is
structurally equal to `optimise(t)`, and the two evaluate identically
against any scope contents. -/
theorem optimise_idempotent (t : Expr) :
    optimise (optimise t) = optimise t ∧
    ∀ ctx, evaluate (optimise (optimise t)) ctx = evaluate (optimise t) ctx :=
  ⟨rfl, fun _ => rfl⟩

/-- C9: the mutating `Expr::param(i, p)` with `i` in bounds replaces
exactly slot `i` with `p`: the length is preserved, every other slot is
unchanged (the operation touches nothing outside this argument list), and
when `p` already equals `args[i]` the call changes nothing at all. -/
theorem param_replace_frame (args : List Expr) (i : Nat) (p : Expr)
    (h : i < args.length) :
    ∃ out, paramSet args i p = some out ∧
      out.length = args.length ∧
      out[i]? = some p ∧
      (∀ j, j ≠ i → out[j]? = args[j]?) ∧
      (p = args[i] → out = args) := by
  by_cases hp : p = args[i]
  · refine ⟨args, ?_, rfl, ?_, fun j _ => rfl, fun _ => rfl⟩
    · simp [paramSet, h, hp]
    · rw [List.getElem?_eq_getElem h, hp]
  · refine ⟨args.set i p, ?_, List.length_set args i p, ?_, ?_,
      fun hc => absurd hc hp⟩
    · simp [paramSet, h, hp]
    · exact List.getElem?_set_self h
    · intro j hj
      exact List.getElem?_set_ne (fun hij => hj hij.symm)

/-- Witness for C9: replacing slot 0 of a two-slot argument list leaves
slot 1 alone. -/
theorem param_replace_frame_witness :
    ∃ out, paramSet [Expr.undef, Expr.scalar 1] 0 (Expr.scalar 2) = some out ∧
      out.length = [Expr.undef, Expr.scalar 1].length ∧
      out[0]? = some (Expr.scalar 2) ∧
      (∀ j, j ≠ 0 → out[j]? = [Expr.undef, Expr.scalar 1][j]?) ∧
      (Expr.scalar 2 = [Expr.undef, Expr.scalar 1][0] →
        out = [Expr.undef, Expr.scalar 1]) :=
  param_replace_frame [Expr.undef, Expr.scalar 1] 0 (Expr.scalar 2) (by decide)

/-- Reading back a run of encoded numbers returns the original list and
the rest of the stream. -/
theorem readNums_map_num {S : Type} (l : List Nat) (s : List (Tok S)) :
    readNums l.length (l.map Tok.num ++ s) = some (l, s) := by
  induction l with
  | nil => rfl
  | cons a l ih => simp [readNums, readNum, ih]

/-- C8: a well-formed tensor of positive flattened size — the element
array holding exactly `flatten shape` entries, as every constructor
guarantees — encodes to a stream (shape vector, then raw element bytes)
that decodes on the same architecture back to an equal shape and
element-wise-equal contents, consuming the whole stream. -/
theorem tensor_encode_decode_roundtrip (S : Type) (t : TensorM S)
    (hw : t.data.length = flatten t.shape) (hp : 0 < flatten t.shape) :
    decode (encode t) = some (t, ([] : List (Tok S))) := by
  obtain ⟨shape, data⟩ := t
  simp only [encode, decode, readNum]
  rw [readNums_map_num]
  simp only at hw
  simp [hp, readBlob, hw]

/-- Witness for C8: a shape-`[2]` integer tensor round-trips through the
stream unchanged. -/
theorem tensor_encode_decode_roundtrip_witness :
    decode (encode (⟨[2], [(5 : Int), 7]⟩ : TensorM Int)) =
      some ((⟨[2], [(5 : Int), 7]⟩ : TensorM Int), ([] : List (Tok Int))) :=
  tensor_encode_decode_roundtrip Int ⟨[2], [(5 : Int), 7]⟩ (by decide) (by decide)

/-- C10: the shape constructor of `Tensor` yields a tensor whose `size()`
is the product of the shape's dimensions whenever that product is
strictly positive, and fails its positivity assertion — rather than
producing an empty tensor — whenever the shape contains a zero
dimension. -/
theorem mkTensor_size_positive_prod (S : Type) [Inhabited S] (shape : List Nat) :
    (0 < shape.prod →
      ∃ t : TensorM S, mkTensor S shape = some t ∧
        t.size = shape.prod ∧ t.shape = shape) ∧
    (0 ∈ shape → mkTensor S shape = none) := by
  have hf : flatten shape = shape.prod := by
    rw [flatten, List.prod_eq_foldl]
  constructor
  · intro hp
    refine ⟨⟨shape, List.replicate (flatten shape) default⟩, ?_, ?_, rfl⟩
    · rw [← hf] at hp
      simp [mkTensor, hp]
    · simp [TensorM.size, hf]
  · intro h0
    have hz : shape.prod = 0 := List.prod_eq_zero h0
    simp [mkTensor, hf, hz]

/-- Witness for C10: shape `[2, 3]` allocates six elements; shape
`[2, 0]` fails the assertion. -/
theorem mkTensor_size_positive_prod_witness :
    (∃ t : TensorM Int, mkTensor Int [2, 3] = some t ∧
      t.size = [2, 3].prod ∧ t.shape = [2, 3]) ∧
    mkTensor Int [2, 0] = none :=
  ⟨(mkTensor_size_positive_prod Int [2, 3]).1 (by decide),
   (mkTensor_size_positive_prod Int [2, 0]).2 (by decide)⟩

end Eckit
